import Mathlib

/-!
Verification of the EmoticonReplacer repository (SillyTavern kaomoji-replacer
extension) against its natural-language specification.

The repository ships only the host-integration glue
(`packages/kaomoji-replacer-sillytavern/index.js`); the core
matching-and-replacement engine (Dataset Store, Search Engine, Token Scanner,
Replacement Engine) is loaded at runtime as a prebuilt UMD bundle and its
source is not part of the repository.  The glue code is embedded here directly
from `index.js`; the core engine is modelled from the specification (each such
definition carries a doc comment starting with `Modelled from the spec:`).

Strings are handled as `List Char` where character-level scanning matters;
scores are rationals (`ℚ`).
-/

namespace KaomojiVerif

/-! ## Data model -/

/-- Modelled from the spec: one dataset record of the Dataset Store
(`keyword`, `kaomoji`, optional `aliases`, optional `tags`).  The core data
manager is not in the repository sources. -/
structure KaomojiEntry where
  keyword : String
  kaomoji : String
  aliases : List String
  tags : List String
deriving DecidableEq

/-- Modelled from the spec: kind of a search match (exact | alias | fuzzy). -/
inductive MatchKind where
  | exactM
  | aliasM
  | fuzzyM
deriving DecidableEq

/-- Modelled from the spec: a transient search candidate — the entry, its
position in the dataset (for the stable tie-break), the match kind and a
numeric score (higher is better). -/
structure MatchCandidate where
  entryIdx : Nat
  entry : KaomojiEntry
  matchKind : MatchKind
  score : ℚ
deriving DecidableEq

/-! ## Normalization (Search Engine, step 1) -/

/-- Whitespace recognised by trimming. -/
def isSpaceChar (c : Char) : Bool :=
  c = ' ' ∨ c = '\t' ∨ c = '\n' ∨ c = '\r'

/-- Punctuation stripped from queries. -/
def isPunctChar (c : Char) : Bool :=
  c = '!' ∨ c = '?' ∨ c = '.' ∨ c = ',' ∨ c = ';' ∨ c = ':' ∨ c = '~'

/-- Trim leading and trailing whitespace from a character list. -/
def trimChars (l : List Char) : List Char :=
  ((l.dropWhile isSpaceChar).reverse.dropWhile isSpaceChar).reverse

/-- Modelled from the spec: keyword normalization — case-fold and trim. -/
def normChars (s : String) : List Char :=
  (trimChars s.toList).map Char.toLower

/-- Modelled from the spec: query normalization — case-fold, trim, strip
punctuation characters. -/
def normalizeQuery (s : String) : List Char :=
  (normChars s).filter (fun c => !isPunctChar c)

/-! ## Similarity (Search Engine, fuzzy stage) -/

/-- Number of characters of `q` that also occur in `s`. -/
def commonCount (q s : List Char) : Nat :=
  (q.filter (fun c => s.contains c)).length

/-- Modelled from the spec: a monotonic 0..1 similarity measure (identical
strings score 1.0, character-disjoint strings score 0.0); the exact measure is
an implementers' choice, taken here as shared-character ratio. -/
def sim (q s : List Char) : ℚ :=
  if q = s then 1
  else (commonCount q s : ℚ) / (max q.length s.length : ℚ)

/-- Modelled from the spec: the default fuzzy threshold 0.3. -/
def threshold : ℚ := 3 / 10

/-- All strings of an entry usable for fuzzy matching: keyword, aliases, tags. -/
def entryAll (e : KaomojiEntry) : List String :=
  e.keyword :: (e.aliases ++ e.tags)

/-- Modelled from the spec: best similarity between the query and any of the
entry's keyword, aliases and tags. -/
def fuzzyScore (q : List Char) (e : KaomojiEntry) : ℚ :=
  ((entryAll e).map (fun s => sim q (normChars s))).foldr max 0

/-- Modelled from the spec: the candidate (if any) an entry contributes for a
normalized query: exact keyword match and alias match score 1.0, otherwise a
fuzzy candidate is emitted when its score exceeds the threshold. -/
def candidateFor (q : List Char) (i : Nat) (e : KaomojiEntry) : Option MatchCandidate :=
  if normChars e.keyword = q then some ⟨i, e, MatchKind.exactM, 1⟩
  else if e.aliases.any (fun a => normChars a = q) then some ⟨i, e, MatchKind.aliasM, 1⟩
  else
    let sc := fuzzyScore q e
    if threshold < sc then some ⟨i, e, MatchKind.fuzzyM, sc⟩ else none

/-- Candidates of all entries, in dataset order, indices starting at `i`. -/
def candsFrom (q : List Char) (i : Nat) : List KaomojiEntry → List MatchCandidate
  | [] => []
  | e :: es =>
    match candidateFor q i e with
    | some c => c :: candsFrom q (i + 1) es
    | none => candsFrom q (i + 1) es

/-! ## Candidate ordering -/

/-- The ordering used to sort candidates: descending score, ties broken by
original dataset position (ascending index). -/
def candLE (c d : MatchCandidate) : Prop :=
  d.score < c.score ∨ (d.score = c.score ∧ c.entryIdx ≤ d.entryIdx)

instance candLE_dec : DecidableRel candLE := fun c d =>
  inferInstanceAs (Decidable (d.score < c.score ∨ (d.score = c.score ∧ c.entryIdx ≤ d.entryIdx)))

instance candLE_total : IsTotal MatchCandidate candLE where
  total a b := by
    rcases lt_trichotomy a.score b.score with h | h | h
    · exact Or.inr (Or.inl h)
    · rcases Nat.le_total a.entryIdx b.entryIdx with hi | hi
      · exact Or.inl (Or.inr ⟨h.symm, hi⟩)
      · exact Or.inr (Or.inr ⟨h, hi⟩)
    · exact Or.inl (Or.inl h)

instance candLE_trans : IsTrans MatchCandidate candLE where
  trans a b c hab hbc := by
    rcases hab with h1 | ⟨h1, hi1⟩ <;> rcases hbc with h2 | ⟨h2, hi2⟩
    · exact Or.inl (lt_trans h2 h1)
    · exact Or.inl (h2 ▸ h1)
    · exact Or.inl (lt_of_lt_of_le h2 (le_of_eq h1))
    · exact Or.inr ⟨h2.trans h1, le_trans hi1 hi2⟩

/-- Modelled from the spec: `search(query)` — normalize the query, collect the
per-entry candidates (each entry contributes at most one, its best kind/score),
and sort by descending score with the stable dataset-order tie-break. -/
def search (store : List KaomojiEntry) (q : String) : List MatchCandidate :=
  List.insertionSort candLE (candsFrom (normalizeQuery q) 0 store)

/-! ## Token Scanner -/

/-- The literal opening delimiter of a token. -/
def openTag : List Char := "[kaomoji:".toList

/-- Strip an expected leading character sequence: `stripPre p cs = some r`
iff `cs = p ++ r`. -/
def stripPre : List Char → List Char → Option (List Char)
  | [], cs => some cs
  | _ :: _, [] => none
  | p :: ps, c :: cs => if c = p then stripPre ps cs else none

/-- Read keyword characters up to the first `]`; `none` when the token is
unterminated (no `]` before the end of the text). -/
def takeUntilRB : List Char → Option (List Char × List Char)
  | [] => none
  | c :: cs =>
    if c = ']' then some ([], cs)
    else
      match takeUntilRB cs with
      | some (k, r) => some (c :: k, r)
      | none => none

/-- Modelled from the spec: the Token Scanner, fuel-indexed so that it is
structurally recursive.  `scanPartsF fuel cs` splits `cs` into a leading
token-free segment and, per token found left to right, its keyword and the
segment following it.  Malformed (unterminated) tokens are not emitted and the
remaining text is left untouched. -/
def scanPartsF : Nat → List Char → List Char × List (List Char × List Char)
  | _, [] => ([], [])
  | 0, cs => (cs, [])
  | fuel + 1, c :: rest =>
    match stripPre openTag (c :: rest) with
    | some tail =>
      match takeUntilRB tail with
      | some (kw, after) =>
        let p := scanPartsF fuel after
        ([], (kw, p.1) :: p.2)
      | none => (c :: rest, [])
    | none =>
      let p := scanPartsF fuel rest
      (c :: p.1, p.2)

/-- Modelled from the spec: scan a text, yielding the leading token-free
segment and the (keyword, following segment) list of all tokens in
left-to-right order. -/
def scanParts (cs : List Char) : List Char × List (List Char × List Char) :=
  scanPartsF cs.length cs

/-- The exact character span of a token with keyword `kw`:
`[kaomoji:` ++ kw ++ `]`. -/
def tokenChars (kw : List Char) : List Char := openTag ++ kw ++ [']']

/-- Rebuild the original text from the scanner's decomposition. -/
def recombine (sp : List Char × List (List Char × List Char)) : List Char :=
  sp.1 ++ (sp.2.map (fun q => tokenChars q.1 ++ q.2)).flatten

/-! ## Replacement Engine -/

/-- Modelled from the spec: per-token outcome. -/
inductive Outcome where
  | replaced
  | notFoundKept
  | notFoundMarked
  | notFoundRemoved
deriving DecidableEq

/-- Modelled from the spec: the candidate-selection strategy; all three are a
single-winner policy. -/
inductive Strategy where
  | first
  | best
  | all
deriving DecidableEq

/-- Modelled from the spec: the options of `replaceText`. -/
structure ReplaceOptions where
  strategy : Strategy
  keepOriginalOnNotFound : Bool
  markNotFound : Bool
deriving DecidableEq

/-- Modelled from the spec: one per-token report. -/
structure ReplacementRecord where
  rawKeyword : String
  outcome : Outcome
  chosenKaomoji : Option String
deriving DecidableEq

/-- Modelled from the spec: the structured result of `replaceText`. -/
structure ReplacementResult where
  text : String
  hasReplacements : Bool
  successCount : Nat
  failureCount : Nat
  records : List ReplacementRecord
deriving DecidableEq

/-- Modelled from the spec: strategy-based selection — all strategies are a
single-winner policy, so the top-ranked candidate (if any) is chosen. -/
def chooseCandidate (store : List KaomojiEntry) (kw : String) : Option MatchCandidate :=
  (search store kw).head?

/-- Modelled from the spec: the replacement characters and the record for one
token.  A chosen candidate yields its kaomoji; otherwise the token is kept
verbatim, rewritten to the `[?keyword]` marker, or removed, per the options. -/
def replaceToken (store : List KaomojiEntry) (o : ReplaceOptions) (kw : List Char) :
    List Char × ReplacementRecord :=
  match chooseCandidate store (String.mk kw) with
  | some c =>
    (c.entry.kaomoji.toList,
      { rawKeyword := String.mk kw, outcome := Outcome.replaced,
        chosenKaomoji := some c.entry.kaomoji })
  | none =>
    if o.keepOriginalOnNotFound then
      (tokenChars kw,
        { rawKeyword := String.mk kw, outcome := Outcome.notFoundKept, chosenKaomoji := none })
    else if o.markNotFound then
      ('[' :: '?' :: (kw ++ [']']),
        { rawKeyword := String.mk kw, outcome := Outcome.notFoundMarked, chosenKaomoji := none })
    else
      ([], { rawKeyword := String.mk kw, outcome := Outcome.notFoundRemoved, chosenKaomoji := none })

/-- Modelled from the spec: `replaceText` — scan once, process the tokens
strictly left to right, rebuild the output in one pass from the original
segments, and report counts; `hasReplacements` is true iff
`successCount + failureCount > 0`. -/
def replaceText (store : List KaomojiEntry) (o : ReplaceOptions) (text : String) :
    ReplacementResult :=
  let sp := scanParts text.toList
  let out := sp.1 ++ (sp.2.map (fun q => (replaceToken store o q.1).1 ++ q.2)).flatten
  let recs := sp.2.map (fun q => (replaceToken store o q.1).2)
  let succ := (recs.filter (fun r => decide (r.outcome = Outcome.replaced))).length
  let fail := (recs.filter (fun r => decide (r.outcome ≠ Outcome.replaced))).length
  { text := String.mk out, hasReplacements := decide (0 < succ + fail),
    successCount := succ, failureCount := fail, records := recs }

/-- The text-free outcome dictated by the not-found policy of the options. -/
def notFoundOutcomeOf (o : ReplaceOptions) : Outcome :=
  if o.keepOriginalOnNotFound then Outcome.notFoundKept
  else if o.markNotFound then Outcome.notFoundMarked
  else Outcome.notFoundRemoved

/-! ## Host integration glue (embedded from index.js) -/

/-- From index.js: the two values of the `modifyMode` setting. -/
inductive ModifyMode where
  | display
  | content
deriving DecidableEq

/-- Host events the glue emits via `eventSource.emit`; only `MESSAGE_EDITED`
is ever emitted (by `modifyMessageContent`). -/
inductive HostEvent where
  | messageEdited
deriving DecidableEq

/-- From index.js: the two `message.extra` fields the extension touches. -/
structure Extra where
  kaomoji_original : Option String
  display_text : Option String
deriving DecidableEq

/-- From index.js: the message fields the extension reads and writes.  `extra`
is `none` when the JS object has no `extra` property yet. -/
structure Message where
  mes : String
  is_user : Bool
  is_system : Bool
  extra : Option Extra
deriving DecidableEq

/-- From index.js: the extension settings relevant to message processing. -/
structure Settings where
  enabled : Bool
  autoProcess : Bool
  modifyMode : ModifyMode
  processUserMessages : Bool
  processAIMessages : Bool
  replaceStrategy : Strategy
  keepOriginalOnNotFound : Bool
  markNotFound : Bool
deriving DecidableEq

/-- From index.js: `if (!message.extra) message.extra = {}` — the extra object
a modify function works on. -/
def getExtra (m : Message) : Extra := m.extra.getD ⟨none, none⟩

/-- JS truthiness of `message.extra.kaomoji_original`: the property is present
and is a nonempty string. -/
def backupTruthy (e : Extra) : Bool :=
  match e.kaomoji_original with
  | some t => decide (t ≠ "")
  | none => false

/-- From index.js: `if (!message.extra.kaomoji_original)
message.extra.kaomoji_original = originalContent` — the backup guard shared by
both modify functions. -/
def ensureBackup (e : Extra) (orig : String) : Extra :=
  if backupTruthy e then e else { e with kaomoji_original := some orig }

/-- From index.js `modifyMessageDisplay`: back up the original content, set
`extra.display_text` and leave `mes` untouched; no event is emitted. -/
def modifyMessageDisplay (m : Message) (displayContent originalContent : String) :
    Message × List HostEvent :=
  let e := ensureBackup (getExtra m) originalContent
  ({ m with extra := some { e with display_text := some displayContent } }, [])

/-- From index.js `modifyMessageContent`: back up the original content, write
`mes` directly, and emit `MESSAGE_EDITED`. -/
def modifyMessageContent (m : Message) (newContent originalContent : String) :
    Message × List HostEvent :=
  let e := ensureBackup (getExtra m) originalContent
  ({ m with mes := newContent, extra := some e }, [HostEvent.messageEdited])

/-- From index.js `processMessage`: the per-call replacement options built
from the settings. -/
def replOptions (s : Settings) : ReplaceOptions :=
  ⟨s.replaceStrategy, s.keepOriginalOnNotFound, s.markNotFound⟩

/-- From index.js `processMessage`: dispatch on `modifyMode`, passing the
current `message.mes` as the original content. -/
def applyModify (s : Settings) (m : Message) (t : String) : Message × List HostEvent :=
  match s.modifyMode with
  | ModifyMode.display => modifyMessageDisplay m t m.mes
  | ModifyMode.content => modifyMessageContent m t m.mes

/-- From index.js `processMessage`: guard on missing/system message and on the
per-type settings, run the replacement, bail out when nothing succeeded, and
otherwise apply the mode-specific modification.  Returns the success flag, the
updated chat and the emitted events. -/
def processMessage (s : Settings) (store : List KaomojiEntry) (chat : List Message) (id : Nat) :
    Bool × List Message × List HostEvent :=
  match chat[id]? with
  | none => (false, chat, [])
  | some m =>
    if m.is_system then (false, chat, [])
    else if m.is_user && !s.processUserMessages then (false, chat, [])
    else if !m.is_user && !s.processAIMessages then (false, chat, [])
    else
      let result := replaceText store (replOptions s) m.mes
      if !result.hasReplacements || result.successCount == 0 then (false, chat, [])
      else
        let me := applyModify s m result.text
        (true, chat.set id me.1, me.2)

/-- From index.js `restoreMessage`: bail out when
`message?.extra?.kaomoji_original` is JS-falsy (absent or the empty string);
otherwise delete `display_text` (display mode) or write `mes` back (content
mode), and delete the backup. -/
def restoreMessage (s : Settings) (m : Message) : Bool × Message :=
  match (getExtra m).kaomoji_original with
  | none => (false, m)
  | some orig =>
    if orig = "" then (false, m)
    else
      let e := getExtra m
      match s.modifyMode with
      | ModifyMode.display =>
        (true, { m with
          extra := some { e with display_text := none, kaomoji_original := none } })
      | ModifyMode.content =>
        (true, { m with
          mes := orig,
          extra := some { e with kaomoji_original := none } })

/-- The chat after one `processMessage` call. -/
def processedChat (s : Settings) (store : List KaomojiEntry) (chat : List Message) (id : Nat) :
    List Message := (processMessage s store chat id).2.1

/-- `n` consecutive `processMessage` calls on the same message id. -/
def iterateProcess (s : Settings) (store : List KaomojiEntry) (id : Nat) :
    Nat → List Message → List Message
  | 0, chat => chat
  | n + 1, chat => iterateProcess s store id n (processedChat s store chat id)

/-! ## Data loading (embedded from index.js `loadKaomojiData`) -/

/-- Outcome of one browser `fetch` of a dataset file: an ok response with its
body, a non-ok HTTP response, or a thrown network error. -/
inductive FetchOutcome where
  | ok (body : String)
  | httpError (status : Nat)
  | networkError
deriving DecidableEq

/-- From index.js: one load attempt — a non-ok response or a fetch error is a
failure (`throw new Error`), an ok body is handed to the data manager's JSON
parser (`parse` abstracts `KaomojiDataManager.loadFromJSON`, which is part of
the core bundle, not of the repository sources). -/
def attemptLoad (parse : String → Except String (List KaomojiEntry)) :
    FetchOutcome → Except String (List KaomojiEntry)
  | FetchOutcome.ok body => parse body
  | FetchOutcome.httpError st => Except.error ("HTTP " ++ toString st)
  | FetchOutcome.networkError => Except.error "fetch failed"

/-- From index.js `loadKaomojiData`: try the user dataset; on any failure fall
back to the template dataset; if that also fails, raise
`No kaomoji data available`.  A successful attempt yields the parsed entries
that are loaded into the replacer. -/
def loadKaomojiData (parse : String → Except String (List KaomojiEntry))
    (userFetch tmplFetch : FetchOutcome) : Except String (List KaomojiEntry) :=
  match attemptLoad parse userFetch with
  | Except.ok data => Except.ok data
  | Except.error _ =>
    match attemptLoad parse tmplFetch with
    | Except.ok data => Except.ok data
    | Except.error _ => Except.error "No kaomoji data available"

/-! ## Concrete demonstration values used by witnesses -/

/-- The spec's example dataset entry. -/
def eHappy : KaomojiEntry := ⟨"happy", "(^_^)", [], []⟩

/-- The default settings of index.js (display mode, AI messages only). -/
def demoSettings : Settings :=
  ⟨true, true, ModifyMode.display, false, true, Strategy.best, true, false⟩

/-- A parser accepting exactly the body `good`. -/
def parseDemo (s : String) : Except String (List KaomojiEntry) :=
  if s = "good" then Except.ok [eHappy] else Except.error "DataFormatError"

/-- A demonstration chat message containing one replaceable token. -/
def demoMsg : Message := ⟨"hi [kaomoji:happy]", false, false, none⟩

/-- A demonstration message without tokens and without an `extra` object. -/
def demoPlain : Message := ⟨"plain", false, false, none⟩

/-- A demonstration message carrying a nonempty backup. -/
def demoBacked : Message := ⟨"x", false, false, some ⟨some "orig", some "d"⟩⟩

/-! ## Token Scanner lemmas -/

theorem stripPre_eq : ∀ (p cs r : List Char), stripPre p cs = some r → cs = p ++ r := by
  intro p
  induction p with
  | nil => intro cs r h; simpa [stripPre] using h
  | cons x xs ih =>
    intro cs r h
    cases cs with
    | nil => simp [stripPre] at h
    | cons c cs' =>
      by_cases hc : c = x
      · simp [stripPre, hc] at h
        simpa [hc] using congrArg (x :: ·) (ih cs' r h)
      · simp [stripPre, hc] at h

theorem takeUntilRB_eq : ∀ (cs k r : List Char), takeUntilRB cs = some (k, r) →
    cs = k ++ ']' :: r := by
  intro cs
  induction cs with
  | nil => intro k r h; simp [takeUntilRB] at h
  | cons c cs' ih =>
    intro k r h
    by_cases hc : c = ']'
    · simp [takeUntilRB, hc] at h
      simp [hc, ← h.1, ← h.2]
    · simp [takeUntilRB, hc] at h
      cases htk : takeUntilRB cs' with
      | none => rw [htk] at h; simp at h
      | some kr =>
        rw [htk] at h
        simp at h
        obtain ⟨hk, hr⟩ := h
        have := ih kr.1 kr.2 (by rw [htk])
        subst hk hr
        simp [this]

theorem scanPartsF_recombine : ∀ (fuel : Nat) (cs : List Char), cs.length ≤ fuel →
    recombine (scanPartsF fuel cs) = cs := by
  intro fuel
  induction fuel with
  | zero =>
    intro cs h
    cases cs with
    | nil => simp [scanPartsF, recombine]
    | cons c rest => simp at h
  | succ f ih =>
    intro cs h
    cases cs with
    | nil => simp [scanPartsF, recombine]
    | cons c rest =>
      cases hs : stripPre openTag (c :: rest) with
      | none => simpa [scanPartsF, hs, recombine] using ih rest (by simpa using Nat.le_of_succ_le_succ h)
      | some tail =>
        cases ht : takeUntilRB tail with
        | none => simp [scanPartsF, hs, ht, recombine]
        | some kr =>
          obtain ⟨kw, after⟩ := kr
          have htail : tail = kw ++ ']' :: after := takeUntilRB_eq tail kw after ht
          have hcs : c :: rest = openTag ++ tail := stripPre_eq openTag (c :: rest) tail hs
          have hlen : after.length ≤ f := by
            have h1 : (c :: rest).length ≤ f + 1 := h
            rw [hcs, htail] at h1
            simp [openTag] at h1
            omega
          have hrec := ih after hlen
          simp only [scanPartsF, hs, ht, recombine, List.map_cons, List.flatten_cons,
            List.nil_append]
          rw [tokenChars, hcs, htail]
          simp only [recombine] at hrec
          simp [hrec]

theorem scanParts_recombine (cs : List Char) : recombine (scanParts cs) = cs :=
  scanPartsF_recombine cs.length cs le_rfl

theorem scanParts_no_tokens (cs : List Char) (h : (scanParts cs).2 = []) :
    (scanParts cs).1 = cs := by
  have hr := scanParts_recombine cs
  rw [recombine, h] at hr
  simpa using hr

/-! ## Search ordering lemmas -/

theorem candidateFor_idx (q : List Char) (i : Nat) (e : KaomojiEntry) (c : MatchCandidate)
    (h : candidateFor q i e = some c) : c.entryIdx = i := by
  unfold candidateFor at h
  split at h
  · cases h; rfl
  · split at h
    · cases h; rfl
    · simp only at h
      split at h
      · cases h; rfl
      · cases h

theorem candsFrom_idx_ge (q : List Char) :
    ∀ (es : List KaomojiEntry) (i : Nat) (c : MatchCandidate),
      c ∈ candsFrom q i es → i ≤ c.entryIdx := by
  intro es
  induction es with
  | nil => intro i c h; simp [candsFrom] at h
  | cons e es' ih =>
    intro i c h
    unfold candsFrom at h
    cases hc : candidateFor q i e with
    | some c0 =>
      rw [hc] at h
      rcases List.mem_cons.mp h with h0 | h0
      · subst h0; exact le_of_eq (candidateFor_idx q i e c hc).symm
      · exact le_trans (Nat.le_succ i) (ih (i + 1) c h0)
    | none =>
      rw [hc] at h
      exact le_trans (Nat.le_succ i) (ih (i + 1) c h)

theorem candsFrom_pairwise_idx (q : List Char) :
    ∀ (es : List KaomojiEntry) (i : Nat),
      (candsFrom q i es).Pairwise (fun c d => c.entryIdx < d.entryIdx) := by
  intro es
  induction es with
  | nil => intro i; simp [candsFrom]
  | cons e es' ih =>
    intro i
    unfold candsFrom
    cases hc : candidateFor q i e with
    | some c0 =>
      refine List.pairwise_cons.mpr ⟨?_, ih (i + 1)⟩
      intro d hd
      have hi := candsFrom_idx_ge q es' (i + 1) d hd
      have := candidateFor_idx q i e c0 hc
      omega
    | none => exact ih (i + 1)

theorem pairwise_and {α : Type} {R S : α → α → Prop} :
    ∀ {l : List α}, l.Pairwise R → l.Pairwise S →
      l.Pairwise (fun a b => R a b ∧ S a b) := by
  intro l
  induction l with
  | nil => intro _ _; exact List.Pairwise.nil
  | cons x xs ih =>
    intro hr hs
    rcases List.pairwise_cons.mp hr with ⟨hr1, hr2⟩
    rcases List.pairwise_cons.mp hs with ⟨hs1, hs2⟩
    exact List.pairwise_cons.mpr ⟨fun b hb => ⟨hr1 b hb, hs1 b hb⟩, ih hr2 hs2⟩

theorem search_perm_candsFrom (store : List KaomojiEntry) (q : String) :
    (search store q).Perm (candsFrom (normalizeQuery q) 0 store) :=
  List.perm_insertionSort candLE (candsFrom (normalizeQuery q) 0 store)

theorem search_pairwise_candLE (store : List KaomojiEntry) (q : String) :
    (search store q).Pairwise candLE :=
  List.sorted_insertionSort candLE (candsFrom (normalizeQuery q) 0 store)

theorem search_pairwise_idx_ne (store : List KaomojiEntry) (q : String) :
    (search store q).Pairwise (fun c d => c.entryIdx ≠ d.entryIdx) := by
  refine (List.Perm.pairwise_iff (fun h => Ne.symm h) (search_perm_candsFrom store q)).mpr ?_
  exact (candsFrom_pairwise_idx (normalizeQuery q) store 0).imp (fun h => Nat.ne_of_lt h)

/-! ## Replacement engine lemmas -/

theorem toList_mk (l : List Char) : (String.mk l).toList = l := rfl

theorem stringMk_toList (s : String) : String.mk s.toList = s := rfl

theorem strLength_toList (s : String) : s.length = s.toList.length := rfl

/-! ## Claim theorems over the core engine -/

/-- C2: for every text containing no `[kaomoji:...]` tokens (the empty string
included), `replaceText` returns the input unchanged with
`hasReplacements = false`, zero success and failure counts, and an empty
record sequence. -/
theorem replace_no_tokens (store : List KaomojiEntry) (o : ReplaceOptions) (text : String)
    (h : (scanParts text.toList).2 = []) :
    replaceText store o text =
      { text := text, hasReplacements := false, successCount := 0,
        failureCount := 0, records := [] } := by
  have h1 := scanParts_no_tokens text.toList h
  simp only [replaceText, h, h1, List.map_nil, List.flatten_nil, List.append_nil,
    List.filter_nil, List.length_nil, Nat.add_zero]
  exact congrArg (fun t => ReplacementResult.mk t false 0 0 []) (stringMk_toList text)

theorem replace_no_tokens_witness :
    ((scanParts "hello there".toList).2 = [])
    ∧ replaceText [] ⟨Strategy.best, true, false⟩ "hello there" =
        { text := "hello there", hasReplacements := false, successCount := 0,
          failureCount := 0, records := [] } :=
  ⟨by decide, replace_no_tokens [] ⟨Strategy.best, true, false⟩ "hello there" (by decide)⟩

/-- C5: search results are sorted by strictly descending score with ties
broken by ascending original dataset position, and each dataset entry appears
at most once among the candidates. -/
theorem search_sorted_and_unique (store : List KaomojiEntry) (q : String) :
    (search store q).Pairwise
      (fun c d => d.score < c.score ∨ (c.score = d.score ∧ c.entryIdx < d.entryIdx))
    ∧ (search store q).Pairwise (fun c d => c.entryIdx ≠ d.entryIdx) := by
  refine ⟨?_, search_pairwise_idx_ne store q⟩
  have h := pairwise_and (search_pairwise_candLE store q) (search_pairwise_idx_ne store q)
  refine h.imp ?_
  rintro a b ⟨hle | ⟨heq, hle⟩, hne⟩
  · exact Or.inl hle
  · exact Or.inr ⟨heq.symm, lt_of_le_of_ne hle hne⟩

/-- C6: search is total — an unmatched query yields an empty candidate
sequence, search on an empty store yields no candidates, and `replaceText` on
an empty store marks every token as not-found per the configured policy
instead of failing. -/
theorem search_empty_behavior (store : List KaomojiEntry) (q : String) (o : ReplaceOptions)
    (text : String) (h : candsFrom (normalizeQuery q) 0 store = []) :
    search store q = []
    ∧ search ([] : List KaomojiEntry) q = []
    ∧ (∀ r ∈ (replaceText [] o text).records,
         r.outcome = notFoundOutcomeOf o ∧ r.outcome ≠ Outcome.replaced) := by
  refine ⟨by simp [search, h], by simp [search, candsFrom], ?_⟩
  intro r hr
  have hrecords : (replaceText [] o text).records
      = (scanParts text.toList).2.map (fun q2 => (replaceToken [] o q2.1).2) := rfl
  rw [hrecords] at hr
  rcases List.mem_map.mp hr with ⟨q2, _, hrq⟩
  have hnone : chooseCandidate [] (String.mk q2.1) = none := by
    simp [chooseCandidate, search, candsFrom]
  rw [← hrq]
  cases hk : o.keepOriginalOnNotFound <;> cases hm : o.markNotFound <;>
    simp [replaceToken, hnone, notFoundOutcomeOf, hk, hm]

theorem search_empty_behavior_witness :
    candsFrom (normalizeQuery "zzz") 0 [] = []
    ∧ (search [] "zzz" = []
       ∧ search ([] : List KaomojiEntry) "zzz" = []
       ∧ (∀ r ∈ (replaceText [] ⟨Strategy.first, false, false⟩ "[kaomoji:zzz]").records,
            r.outcome = notFoundOutcomeOf ⟨Strategy.first, false, false⟩
            ∧ r.outcome ≠ Outcome.replaced)) :=
  ⟨by decide,
    search_empty_behavior [] "zzz" ⟨Strategy.first, false, false⟩ "[kaomoji:zzz]" (by decide)⟩

/-- C7: search is deterministic — against an unchanged store, two calls with
the same query return identical ordered results. -/
theorem search_deterministic (store store2 : List KaomojiEntry) (q q2 : String)
    (hs : store = store2) (hq : q = q2) : search store q = search store2 q2 := by
  rw [hs, hq]

theorem search_deterministic_witness : search [] "a" = search [] "a" :=
  search_deterministic [] [] "a" "a" rfl rfl

/-- C1: for every token of the input whose keyword yields no candidate, the
output rebuilds the text from the original segments with the token span
rendered per policy — kept verbatim with `keepOriginalOnNotFound`, rewritten
to the `[?keyword]` marker with `markNotFound`, and removed entirely (the
output being shorter by exactly the token span) when both are false — and the
corresponding record outcome is `notFoundKept`, `notFoundMarked`, or
`notFoundRemoved` respectively. -/
theorem replace_notFound_policy (store : List KaomojiEntry) (o : ReplaceOptions) (text : String)
    (p : List Char × List Char) (_hp : p ∈ (scanParts text.toList).2)
    (hs : search store (String.mk p.1) = []) :
    ((replaceText store o text).text.toList
        = (scanParts text.toList).1
          ++ ((scanParts text.toList).2.map
                (fun q => (replaceToken store o q.1).1 ++ q.2)).flatten)
    ∧ ((replaceText store o text).records
        = (scanParts text.toList).2.map (fun q => (replaceToken store o q.1).2))
    ∧ (o.keepOriginalOnNotFound = true →
         (replaceToken store o p.1).1 = tokenChars p.1
         ∧ (replaceToken store o p.1).2.outcome = Outcome.notFoundKept)
    ∧ (o.keepOriginalOnNotFound = false → o.markNotFound = true →
         (replaceToken store o p.1).1 = '[' :: '?' :: (p.1 ++ [']'])
         ∧ (replaceToken store o p.1).2.outcome = Outcome.notFoundMarked)
    ∧ (o.keepOriginalOnNotFound = false → o.markNotFound = false →
         (replaceToken store o p.1).1 = []
         ∧ (replaceToken store o p.1).2.outcome = Outcome.notFoundRemoved
         ∧ ((scanParts text.toList).2 = [p] →
              (replaceText store o text).text.length + (tokenChars p.1).length
                = text.length)) := by
  have hnone : chooseCandidate store (String.mk p.1) = none := by
    simp [chooseCandidate, hs]
  refine ⟨rfl, rfl, ?_, ?_, ?_⟩
  · intro hk
    simp [replaceToken, hnone, hk]
  · intro hk hm
    simp [replaceToken, hnone, hk, hm]
  · intro hk hm
    refine ⟨by simp [replaceToken, hnone, hk, hm], by simp [replaceToken, hnone, hk, hm], ?_⟩
    intro h2
    have hrec := scanParts_recombine text.toList
    rw [recombine, h2] at hrec
    have hout : (replaceText store o text).text.toList
        = (scanParts text.toList).1
          ++ ((scanParts text.toList).2.map
                (fun q => (replaceToken store o q.1).1 ++ q.2)).flatten := rfl
    rw [h2] at hout
    simp only [List.map_cons, List.map_nil, List.flatten_cons, List.flatten_nil,
      List.append_nil] at hout hrec
    have hrepl : (replaceToken store o p.1).1 = [] := by simp [replaceToken, hnone, hk, hm]
    have hlen := congrArg List.length hrec
    rw [strLength_toList, strLength_toList, hout, hrepl]
    simp only [List.length_append, tokenChars, List.nil_append, List.length_cons] at hlen ⊢
    omega

theorem replace_notFound_policy_witness :
    ((⟨"sad".toList, []⟩ : List Char × List Char) ∈ (scanParts "[kaomoji:sad]".toList).2)
    ∧ search [] (String.mk "sad".toList) = []
    ∧ ((replaceToken [] ⟨Strategy.best, false, true⟩ "sad".toList).1
         = '[' :: '?' :: ("sad".toList ++ [']'])
       ∧ (replaceToken [] ⟨Strategy.best, false, true⟩ "sad".toList).2.outcome
         = Outcome.notFoundMarked) :=
  ⟨by decide, by decide,
    (replace_notFound_policy [] ⟨Strategy.best, false, true⟩ "[kaomoji:sad]"
      ⟨"sad".toList, []⟩ (by decide) (by decide)).2.2.2.1 rfl rfl⟩

/-! ## Host glue lemmas -/

theorem ensureBackup_display (e : Extra) (orig : String) :
    (ensureBackup e orig).display_text = e.display_text := by
  unfold ensureBackup
  split <;> rfl

theorem get_set_self {α : Type} : ∀ (l : List α) (i : Nat) (x y : α),
    l[i]? = some y → (l.set i x)[i]? = some x := by
  intro l
  induction l with
  | nil => intro i x y h; simp at h
  | cons a l' ih =>
    intro i x y h
    cases i with
    | zero => simp [List.set]
    | succ j =>
      have := ih j x y (by simpa using h)
      simpa [List.set] using this

theorem replaceText_empty_succ (store : List KaomojiEntry) (o : ReplaceOptions) :
    (replaceText store o "").successCount = 0 := rfl

/-! ## Claim theorems over the host glue -/

/-- C3: `loadKaomojiData` — when the user-dataset attempt fails (fetch error,
non-ok response, or parse failure) the template dataset is the fallback; when
both attempts fail the call raises `No kaomoji data available`; and whenever
either attempt succeeds its parsed entries are the ones loaded. -/
theorem load_fallback (parse : String → Except String (List KaomojiEntry))
    (uf tf : FetchOutcome) :
    (∀ d, attemptLoad parse uf = Except.ok d → loadKaomojiData parse uf tf = Except.ok d)
    ∧ (∀ e d, attemptLoad parse uf = Except.error e → attemptLoad parse tf = Except.ok d →
         loadKaomojiData parse uf tf = Except.ok d)
    ∧ (∀ e e2, attemptLoad parse uf = Except.error e → attemptLoad parse tf = Except.error e2 →
         loadKaomojiData parse uf tf = Except.error "No kaomoji data available")
    ∧ (∀ st, uf = FetchOutcome.httpError st → ∃ e, attemptLoad parse uf = Except.error e)
    ∧ (uf = FetchOutcome.networkError → ∃ e, attemptLoad parse uf = Except.error e) := by
  refine ⟨?_, ?_, ?_, ?_, ?_⟩
  · intro d h
    simp [loadKaomojiData, h]
  · intro e d h1 h2
    simp [loadKaomojiData, h1, h2]
  · intro e e2 h1 h2
    simp [loadKaomojiData, h1, h2]
  · intro st h
    exact ⟨"HTTP " ++ toString st, by simp [attemptLoad, h]⟩
  · intro h
    exact ⟨"fetch failed", by simp [attemptLoad, h]⟩

theorem load_fallback_witness :
    attemptLoad parseDemo (FetchOutcome.httpError 404) = Except.error "HTTP 404"
    ∧ attemptLoad parseDemo (FetchOutcome.ok "good") = Except.ok [eHappy]
    ∧ loadKaomojiData parseDemo (FetchOutcome.httpError 404) (FetchOutcome.ok "good")
        = Except.ok [eHappy] :=
  ⟨rfl, rfl,
    (load_fallback parseDemo (FetchOutcome.httpError 404) (FetchOutcome.ok "good")).2.1
      "HTTP 404" [eHappy] rfl rfl⟩

/-- C4: in display mode the rewritten text is stored only in
`message.extra.display_text`, `message.mes` is left unchanged and nothing is
emitted; in content mode `message.mes` is set to the rewritten text and a
`MESSAGE_EDITED` event is emitted (and `display_text` is not touched). -/
theorem modify_mode_effects (m : Message) (txt orig : String) :
    (modifyMessageDisplay m txt orig).1.mes = m.mes
    ∧ (getExtra (modifyMessageDisplay m txt orig).1).display_text = some txt
    ∧ (modifyMessageDisplay m txt orig).2 = []
    ∧ (modifyMessageContent m txt orig).1.mes = txt
    ∧ (getExtra (modifyMessageContent m txt orig).1).display_text = (getExtra m).display_text
    ∧ (modifyMessageContent m txt orig).2 = [HostEvent.messageEdited] := by
  refine ⟨rfl, rfl, rfl, rfl, ?_, rfl⟩
  exact ensureBackup_display (getExtra m) orig

/-- C10: `processMessage` returns false and leaves the chat untouched when the
message is missing, is a system message, is of a type disabled by the
`processUserMessages`/`processAIMessages` settings, or when the replacement
result has `hasReplacements = false` or `successCount = 0`; only when every
guard passes is the message modified (per the configured mode) and true
returned. -/
theorem process_guards (s : Settings) (store : List KaomojiEntry) (chat : List Message)
    (id : Nat) :
    (chat[id]? = none → processMessage s store chat id = (false, chat, []))
    ∧ (∀ m, chat[id]? = some m → m.is_system = true →
         processMessage s store chat id = (false, chat, []))
    ∧ (∀ m, chat[id]? = some m → m.is_user = true → s.processUserMessages = false →
         processMessage s store chat id = (false, chat, []))
    ∧ (∀ m, chat[id]? = some m → m.is_user = false → s.processAIMessages = false →
         processMessage s store chat id = (false, chat, []))
    ∧ (∀ m, chat[id]? = some m →
         ((replaceText store (replOptions s) m.mes).hasReplacements = false
          ∨ (replaceText store (replOptions s) m.mes).successCount = 0) →
         processMessage s store chat id = (false, chat, []))
    ∧ (∀ m, chat[id]? = some m → m.is_system = false →
         (m.is_user = true → s.processUserMessages = true) →
         (m.is_user = false → s.processAIMessages = true) →
         (replaceText store (replOptions s) m.mes).hasReplacements = true →
         (replaceText store (replOptions s) m.mes).successCount ≠ 0 →
         processMessage s store chat id
           = (true,
              chat.set id
                (applyModify s m (replaceText store (replOptions s) m.mes).text).1,
              (applyModify s m (replaceText store (replOptions s) m.mes).text).2)) := by
  refine ⟨?_, ?_, ?_, ?_, ?_, ?_⟩
  · intro h
    simp [processMessage, h]
  · intro m hm hsys
    simp [processMessage, hm, hsys]
  · intro m hm hu hpu
    cases hsys : m.is_system <;> simp [processMessage, hm, hsys, hu, hpu]
  · intro m hm hu hpa
    cases hsys : m.is_system <;> cases hu2 : m.is_user <;>
      cases hpu : s.processUserMessages <;>
      simp_all [processMessage]
  · intro m hm hno
    rcases hno with h | h <;>
      cases hsys : m.is_system <;> cases hu : m.is_user <;>
      cases hpu : s.processUserMessages <;> cases hpa : s.processAIMessages <;>
      simp [processMessage, hm, hsys, hu, hpu, hpa, h]
  · intro m hm hsys himpu himpa hr hsc
    cases hu : m.is_user
    · have hpa := himpa hu
      simp [processMessage, hm, hsys, hu, hpa, hr, hsc]
    · have hpu := himpu hu
      simp [processMessage, hm, hsys, hu, hpu, hr, hsc]

theorem process_guards_witness :
    ([demoMsg][0]? = some demoMsg)
    ∧ demoMsg.is_system = false
    ∧ (replaceText [eHappy] (replOptions demoSettings) demoMsg.mes).hasReplacements = true
    ∧ (replaceText [eHappy] (replOptions demoSettings) demoMsg.mes).successCount ≠ 0
    ∧ processMessage demoSettings [eHappy] [demoMsg] 0
        = (true,
           [demoMsg].set 0
             (applyModify demoSettings demoMsg
               (replaceText [eHappy] (replOptions demoSettings) demoMsg.mes).text).1,
           (applyModify demoSettings demoMsg
             (replaceText [eHappy] (replOptions demoSettings) demoMsg.mes).text).2) :=
  ⟨rfl, rfl, by decide, by decide,
    (process_guards demoSettings [eHappy] [demoMsg] 0).2.2.2.2.2 demoMsg rfl rfl
      (fun h => Bool.noConfusion h) (fun _ => rfl) (by decide) (by decide)⟩

/-! ## Backup write-once machinery (C8) -/

theorem getExtra_update (m : Message) (e : Extra) :
    getExtra { m with extra := some e } = e := rfl

theorem getExtra_mk (a : String) (b c : Bool) (e : Extra) :
    getExtra (Message.mk a b c (some e)) = e := rfl

theorem applyModify_backup_none (s : Settings) (m : Message) (t : String)
    (h : (getExtra m).kaomoji_original = none) :
    (getExtra (applyModify s m t).1).kaomoji_original = some m.mes := by
  have hb : backupTruthy (getExtra m) = false := by simp [backupTruthy, h]
  cases hmo : s.modifyMode <;>
    simp [applyModify, hmo, modifyMessageDisplay, modifyMessageContent, getExtra_update,
      getExtra_mk, ensureBackup, hb]

theorem applyModify_backup_truthy (s : Settings) (m : Message) (t : String)
    (h : backupTruthy (getExtra m) = true) :
    (getExtra (applyModify s m t).1).kaomoji_original = (getExtra m).kaomoji_original := by
  cases hmo : s.modifyMode <;>
    simp [applyModify, hmo, modifyMessageDisplay, modifyMessageContent, getExtra_update,
      getExtra_mk, ensureBackup, h]

theorem processMessage_cases (s : Settings) (store : List KaomojiEntry) (chat : List Message)
    (id : Nat) :
    processMessage s store chat id = (false, chat, [])
    ∨ ∃ mc, chat[id]? = some mc
        ∧ (replaceText store (replOptions s) mc.mes).successCount ≠ 0
        ∧ processMessage s store chat id
            = (true,
               chat.set id
                 (applyModify s mc (replaceText store (replOptions s) mc.mes).text).1,
               (applyModify s mc (replaceText store (replOptions s) mc.mes).text).2) := by
  unfold processMessage
  cases hm : chat[id]? with
  | none => exact Or.inl rfl
  | some mc =>
    dsimp only
    split_ifs with h1 h2 h3 h4
    · exact Or.inl rfl
    · exact Or.inl rfl
    · exact Or.inl rfl
    · exact Or.inl rfl
    · refine Or.inr ⟨mc, rfl, ?_, rfl⟩
      intro he
      simp only [Bool.or_eq_true, Bool.not_eq_true', beq_iff_eq, not_or] at h4
      exact h4.2 he

theorem processMessage_backup_step (s : Settings) (store : List KaomojiEntry)
    (chat : List Message) (id : Nat) (m0 : Message)
    (hInv : ∀ m2, chat[id]? = some m2 →
       ((getExtra m2).kaomoji_original = none ∧ m2 = m0)
       ∨ ((getExtra m2).kaomoji_original = some m0.mes ∧ m0.mes ≠ "")) :
    ∀ m2, (processedChat s store chat id)[id]? = some m2 →
       ((getExtra m2).kaomoji_original = none ∧ m2 = m0)
       ∨ ((getExtra m2).kaomoji_original = some m0.mes ∧ m0.mes ≠ "") := by
  intro m2 h2
  rcases processMessage_cases s store chat id with hpc | ⟨mc, hm, hsc, hpc⟩
  · unfold processedChat at h2
    rw [hpc] at h2
    exact hInv m2 h2
  · unfold processedChat at h2
    rw [hpc] at h2
    have hset := get_set_self chat id
      ((applyModify s mc (replaceText store (replOptions s) mc.mes).text).1) mc hm
    rw [hset] at h2
    have hm2 := Option.some.inj h2
    rcases hInv mc hm with ⟨hnone, heq⟩ | ⟨hsome, hne⟩
    · subst heq
      refine Or.inr ⟨?_, ?_⟩
      · rw [← hm2]
        exact applyModify_backup_none s mc _ hnone
      · intro he
        rw [he] at hsc
        exact hsc (replaceText_empty_succ store (replOptions s))
    · refine Or.inr ⟨?_, hne⟩
      have hb : backupTruthy (getExtra mc) = true := by
        simp [backupTruthy, hsome, hne]
      rw [← hm2, applyModify_backup_truthy s mc _ hb]
      exact hsome

theorem iterate_backup_invariant (s : Settings) (store : List KaomojiEntry) (id : Nat)
    (m0 : Message) :
    ∀ (n : Nat) (chat : List Message),
      (∀ m2, chat[id]? = some m2 →
         ((getExtra m2).kaomoji_original = none ∧ m2 = m0)
         ∨ ((getExtra m2).kaomoji_original = some m0.mes ∧ m0.mes ≠ "")) →
      ∀ m2, (iterateProcess s store id n chat)[id]? = some m2 →
         ((getExtra m2).kaomoji_original = none ∧ m2 = m0)
         ∨ ((getExtra m2).kaomoji_original = some m0.mes ∧ m0.mes ≠ "") := by
  intro n
  induction n with
  | zero =>
    intro chat hInv m2 h2
    exact hInv m2 (by simpa [iterateProcess] using h2)
  | succ k ih =>
    intro chat hInv m2 h2
    refine ih (processedChat s store chat id)
      (processMessage_backup_step s store chat id m0 hInv) m2 ?_
    simpa [iterateProcess] using h2

/-! ## Claim theorems: backup write-once (C8) and restore (C9) -/

/-- C8 counterexample: the backup guard tests JS truthiness, so a backup that
was set to the empty string is treated as unset and is overwritten by the next
modify call — `kaomoji_original` is not write-once as claimed. -/
theorem backup_overwrite_cex :
    (getExtra (modifyMessageDisplay (⟨"x", false, false, none⟩ : Message) "d" "").1).kaomoji_original
      = some ""
    ∧ (getExtra (modifyMessageDisplay
        (modifyMessageDisplay (⟨"x", false, false, none⟩ : Message) "d" "").1
        "e" "zzz").1).kaomoji_original = some "zzz" := by
  decide

/-- C8 (amended): once `kaomoji_original` holds a nonempty string, no call of
`modifyMessageDisplay` or `modifyMessageContent` overwrites it; and through
`processMessage` (which only modifies when a replacement succeeded, forcing
the backed-up text to be nonempty) any number of calls on the same message
leaves the backup equal to the message text from before the first
modification. -/
theorem backup_write_once (s : Settings) (store : List KaomojiEntry) :
    (∀ (m : Message) (d orig : String), backupTruthy (getExtra m) = true →
       (getExtra (modifyMessageDisplay m d orig).1).kaomoji_original
         = (getExtra m).kaomoji_original)
    ∧ (∀ (m : Message) (nc orig : String), backupTruthy (getExtra m) = true →
       (getExtra (modifyMessageContent m nc orig).1).kaomoji_original
         = (getExtra m).kaomoji_original)
    ∧ (∀ (chat : List Message) (id : Nat) (m0 : Message) (n : Nat),
         chat[id]? = some m0 → (getExtra m0).kaomoji_original = none →
         ∀ m2, (iterateProcess s store id n chat)[id]? = some m2 →
           (getExtra m2).kaomoji_original = none
           ∨ (getExtra m2).kaomoji_original = some m0.mes) := by
  refine ⟨?_, ?_, ?_⟩
  · intro m d orig h
    simp [modifyMessageDisplay, getExtra_update, ensureBackup, h]
  · intro m nc orig h
    simp [modifyMessageContent, getExtra_update, getExtra_mk, ensureBackup, h]
  · intro chat id m0 n hm hnone m2 h2
    have hInv : ∀ m3, chat[id]? = some m3 →
        ((getExtra m3).kaomoji_original = none ∧ m3 = m0)
        ∨ ((getExtra m3).kaomoji_original = some m0.mes ∧ m0.mes ≠ "") := by
      intro m3 h3
      rw [hm] at h3
      have := Option.some.inj h3
      subst this
      exact Or.inl ⟨hnone, rfl⟩
    rcases iterate_backup_invariant s store id m0 n chat hInv m2 h2 with ⟨h3, _⟩ | ⟨h3, _⟩
    · exact Or.inl h3
    · exact Or.inr h3

theorem backup_write_once_witness :
    backupTruthy (getExtra demoBacked) = true
    ∧ (getExtra (modifyMessageDisplay demoBacked "d" "y").1).kaomoji_original
        = (getExtra demoBacked).kaomoji_original
    ∧ ([demoPlain][0]? = some demoPlain)
    ∧ (getExtra demoPlain).kaomoji_original = none
    ∧ (∀ m2, (iterateProcess demoSettings [eHappy] 0 2 [demoPlain])[0]? = some m2 →
         (getExtra m2).kaomoji_original = none
         ∨ (getExtra m2).kaomoji_original = some demoPlain.mes) :=
  ⟨by decide,
   (backup_write_once demoSettings [eHappy]).1 demoBacked "d" "y" (by decide),
   rfl, rfl,
   fun m2 h2 =>
     (backup_write_once demoSettings [eHappy]).2.2 [demoPlain] 0 demoPlain 2 rfl rfl m2 h2⟩

/-- C9 counterexample: a message whose `kaomoji_original` is set to the empty
string is JS-falsy, so `restoreMessage` returns false instead of restoring as
the claim requires for every message with the backup set. -/
theorem restore_falsy_backup_cex :
    (getExtra (⟨"x", false, false, some ⟨some "", some "d"⟩⟩ : Message)).kaomoji_original
      = some ""
    ∧ (restoreMessage demoSettings
        (⟨"x", false, false, some ⟨some "", some "d"⟩⟩ : Message)).1 = false := by
  decide

/-- C9 (amended): for every message whose backup is a nonempty string,
`restoreMessage` returns true, deletes the backup, and — in content mode —
restores `mes` to the backed-up text, or — in display mode — deletes
`display_text` and leaves `mes` unchanged; for a message whose backup is
absent (or the JS-falsy empty string) it returns false and changes nothing. -/
theorem restore_behavior (s : Settings) (m : Message) :
    ((getExtra m).kaomoji_original = none → restoreMessage s m = (false, m))
    ∧ ((getExtra m).kaomoji_original = some "" → restoreMessage s m = (false, m))
    ∧ (∀ orig, (getExtra m).kaomoji_original = some orig → orig ≠ "" →
         (restoreMessage s m).1 = true
         ∧ (getExtra (restoreMessage s m).2).kaomoji_original = none
         ∧ (s.modifyMode = ModifyMode.content → (restoreMessage s m).2.mes = orig)
         ∧ (s.modifyMode = ModifyMode.display →
              (getExtra (restoreMessage s m).2).display_text = none
              ∧ (restoreMessage s m).2.mes = m.mes)) := by
  refine ⟨?_, ?_, ?_⟩
  · intro h
    simp [restoreMessage, h]
  · intro h
    simp [restoreMessage, h]
  · intro orig h hne
    cases hmo : s.modifyMode <;>
      simp [restoreMessage, h, hne, hmo, getExtra_update, getExtra_mk]

theorem restore_behavior_witness :
    (getExtra demoBacked).kaomoji_original = some "orig"
    ∧ ((restoreMessage demoSettings demoBacked).1 = true
       ∧ (getExtra (restoreMessage demoSettings demoBacked).2).kaomoji_original = none
       ∧ (demoSettings.modifyMode = ModifyMode.content →
            (restoreMessage demoSettings demoBacked).2.mes = "orig")
       ∧ (demoSettings.modifyMode = ModifyMode.display →
            (getExtra (restoreMessage demoSettings demoBacked).2).display_text = none
            ∧ (restoreMessage demoSettings demoBacked).2.mes = demoBacked.mes)) :=
  ⟨rfl, (restore_behavior demoSettings demoBacked).2.2 "orig" rfl (by decide)⟩

end KaomojiVerif
